import Mathlib

/-!
Verification of the gen-json family-tree viewer (`viewer/script.js` of the
gen-json-spec repository) against its natural-language specification.

The viewer consumes a parsed JSON document (`familyData`), selects root
individuals, renders a depth- and cycle-guarded hierarchy
(`renderFamilyTree` / `renderChildren` / `createPersonNode` / `extractYear`)
and a per-person details panel (`renderPersonDetails`).

The embedding models JavaScript values reaching these functions with the
`Json` type below (JS `undefined` is `Json.undefined`), and models the DOM tree
the script builds with the abstract node shape `PNode` (id, name text,
dates text, ordered children) and `Details` for the details panel.
JavaScript semantics relevant to the source — truthiness, `typeof x ===
'object'`, property lookup with string keys, `Object.keys`, `.length`,
string coercion of property keys — are modelled explicitly.  Numbers are
modelled as integers: the source only ever compares `.length` values with
`0`, so floating point never matters on these code paths.
-/

mutual

/-- A JavaScript value as the viewer script sees one: the six JSON shapes
plus `undefined`, which is what property access on a missing key yields.
Arrays and objects carry their own list types (`Jsons`, `JsonFields`) so
that recursion over a value is plain mutual structural recursion. -/
inductive Json where
  | undefined : Json
  | null : Json
  | bool : Bool → Json
  | num : Int → Json
  | str : String → Json
  | arr : Jsons → Json
  | obj : JsonFields → Json

/-- The elements of a JSON array. -/
inductive Jsons where
  | nil : Jsons
  | cons : Json → Jsons → Jsons

/-- The key/value fields of a JSON object, in insertion order; a parsed
JSON object's keys are distinct. -/
inductive JsonFields where
  | nil : JsonFields
  | cons : String → Json → JsonFields → JsonFields

end

/-- The elements of an array value, as a `List`. -/
def Jsons.toList : Jsons → List Json
  | .nil => []
  | .cons j js => j :: js.toList

/-- Build an array's element spine from a `List` (for writing documents). -/
def Jsons.ofList : List Json → Jsons
  | [] => .nil
  | j :: js => .cons j (Jsons.ofList js)

/-- The fields of an object value, as a `List` of pairs. -/
def JsonFields.toList : JsonFields → List (String × Json)
  | .nil => []
  | .cons k v rest => (k, v) :: rest.toList

/-- Build an object's field spine from a `List` (for writing documents). -/
def JsonFields.ofList : List (String × Json) → JsonFields
  | [] => .nil
  | (k, v) :: rest => .cons k v (JsonFields.ofList rest)

/-- A JSON array literal. -/
def Json.array (xs : List Json) : Json := .arr (Jsons.ofList xs)

/-- A JSON object literal. -/
def Json.object (kvs : List (String × Json)) : Json := .obj (JsonFields.ofList kvs)

/-- JavaScript truthiness: `undefined`, `null`, `false`, `0` and `""` are
falsy; every array and object (including empty ones) is truthy. -/
def Json.truthy : Json → Bool
  | .undefined => false
  | .null => false
  | .bool b => b
  | .num n => n != 0
  | .str s => s != ""
  | .arr _ => true
  | .obj _ => true

/-- The JavaScript test `typeof x === 'object'`: true for objects, arrays and `null`. -/
def Json.typeofObject : Json → Bool
  | .null => true
  | .arr _ => true
  | .obj _ => true
  | _ => false

mutual

/-- String coercion of a JavaScript value, as used when a value is taken as
a property key (`individuals[childId]`) or written into text content.
Arrays join their coerced elements with commas (`Array.prototype.toString`),
with `null`/`undefined` elements becoming empty; plain objects print as
`[object Object]`. -/
def Json.toStr : Json → String
  | .undefined => "undefined"
  | .null => "null"
  | .bool true => "true"
  | .bool false => "false"
  | .num n => toString n
  | .str s => s
  | .arr xs => String.intercalate "," (Jsons.toStrs xs)
  | .obj _ => "[object Object]"

/-- The coerced elements of an array, as `Array.prototype.join` sees them:
`null` and `undefined` become the empty string. -/
def Jsons.toStrs : Jsons → List String
  | .nil => []
  | .cons j rest =>
      (match j with
       | .undefined => ""
       | .null => ""
       | y => Json.toStr y) :: Jsons.toStrs rest

end

/-- Property access `j[k]` with a string key.  On an object, the value at
the key (keys of a parsed JSON object are distinct, so first match is the
match); on an array, the element at the canonical numeric index the key
spells; `undefined` otherwise.  Property access on JS `null`/`undefined`
throws, but the source only dereferences after a truthiness guard. -/
def Json.get : Json → String → Json
  | .obj kvs, k => ((kvs.toList.find? (fun kv => kv.1 == k)).map (fun kv => kv.2)).getD .undefined
  | .arr xs, k =>
      match k.toNat? with
      | some i => if toString i == k then xs.toList.getD i .undefined else .undefined
      | none => .undefined
  | _, _ => .undefined

/-- Key enumeration, `Object.keys` / `for (const id in x)` order: an object's
keys in insertion order, an array's (or string's) index strings. -/
def Json.keys : Json → List String
  | .obj kvs => kvs.toList.map (fun kv => kv.1)
  | .arr xs => (List.range xs.toList.length).map (fun i => toString i)
  | .str s => (List.range s.length).map (fun i => toString i)
  | _ => []

/-- The elements a `forEach` loop visits.  Only arrays have `forEach`; a
truthy non-array value with a `.length` passing the source's guards would
make the source throw a `TypeError`, a path no claim exercises — here such
a value simply yields no iterations. -/
def Json.elems : Json → List Json
  | .arr xs => xs.toList
  | _ => []

/-- The test `x.length === 0`: an empty array or empty string; any other value has a
non-`0` (or `undefined`) length. -/
def Json.lenZero : Json → Bool
  | .arr xs => xs.toList.isEmpty
  | .str s => s.isEmpty
  | _ => false

/-- The test `x.length > 0`: a non-empty array or non-empty string; `undefined > 0`
is false. -/
def Json.lenPos : Json → Bool
  | .arr xs => !xs.toList.isEmpty
  | .str s => !s.isEmpty
  | _ => false

/-- JavaScript `a || b`. -/
def Json.orElse (a b : Json) : Json :=
  if a.truthy then a else b

/-- JavaScript `\w` (no `u` flag): ASCII letters, digits and underscore. -/
def isWordChar (c : Char) : Bool :=
  c.isAlphanum || c == '_'

/-- The viewer's first regex in `extractYear`:
`dateString.match(/^(\d{4})-\d{2}-\d{2}$/)`, returning capture group 1
(the year) when the whole string is `YYYY-MM-DD`. -/
def isoYear? (s : String) : Option String :=
  match s.data with
  | [y1, y2, y3, y4, h1, m1, m2, h2, d1, d2] =>
      if ([y1, y2, y3, y4, m1, m2, d1, d2].all Char.isDigit) && h1 == '-' && h2 == '-' then
        some (String.mk [y1, y2, y3, y4])
      else
        none
  | _ => none

/-- Does `\b` hold just before the current position?  `prev` is the
character to the left (`none` at the start of the string); the character at
the position itself is a digit, a word character, so the boundary holds iff
the left neighbour is absent or not a word character. -/
def boundaryBefore : Option Char → Bool
  | none => true
  | some c => !isWordChar c

/-- Does `\b` hold just after a digit?  `rest` is what follows; the
boundary holds iff the string ends there or continues with a non-word
character. -/
def boundaryAfter : List Char → Bool
  | [] => true
  | c :: _ => !isWordChar c

/-- The viewer's second regex: `dateString.match(/\b(\d{4})\b/)`.  The
regex engine scans start positions left to right, so the result is the
leftmost position holding four digits delimited by word boundaries.
`prev` carries the character left of the current position. -/
def findYear (prev : Option Char) : List Char → Option String
  | [] => none
  | c1 :: rest =>
      (match rest with
       | c2 :: c3 :: c4 :: rest4 =>
           if c1.isDigit && c2.isDigit && c3.isDigit && c4.isDigit
              && boundaryBefore prev && boundaryAfter rest4 then
             some (String.mk [c1, c2, c3, c4])
           else
             none
       | _ => none).orElse
        (fun _ => findYear (some c1) rest)

/-- Source `extractYear(dateString)` of the viewer script.  `none` models a
`null`/`undefined` argument (the `!dateString` early return also catches
the empty string).  The function is total: it never throws on a string. -/
def extractYear (dateString : Option String) : String :=
  match dateString with
  | none => "?"
  | some s =>
      if s == "" then "?"
      else
        match isoYear? s with
        | some y => y
        | none =>
            match findYear none s.data with
            | some y => y
            | none => s

/-- The abstract shape of one rendered tree node: its entity id
(`dataset.id`), the name line, the dates line, and the ordered child
nodes appended beneath it. -/
structure PNode where
  id : String
  name : String
  dates : String
  children : List PNode

/-- The birth half of the dates line in `createPersonNode`:
`person.birth && person.birth.date ? extractYear(person.birth.date) : '?'`.
The source passes `person.birth.date` to `extractYear` raw; a non-string
date would make `.match` throw, so string coercion only records how the
value reads. -/
def birthText (person : Json) : String :=
  if (person.get "birth").truthy && ((person.get "birth").get "date").truthy then
    extractYear (some ((person.get "birth").get "date").toStr)
  else
    "?"

/-- The death half of the dates line in `createPersonNode`: the extracted
year when `person.death && person.death.date`; otherwise `'present'` when
`Object.keys(person.death || {}).length === 0`; otherwise `'?'`. -/
def deathText (person : Json) : String :=
  if (person.get "death").truthy && ((person.get "death").get "date").truthy then
    extractYear (some ((person.get "death").get "date").toStr)
  else if (((person.get "death").orElse (Json.obj .nil)).keys).length == 0 then
    "present"
  else
    "?"

/-- Source `createPersonNode(id, person, depth)` (its `depth` argument is unused
by the source): a node showing `person.full_name || 'Unknown'` and the
birth–death line, with no children attached yet. -/
def createPersonNode (id : String) (person : Json) : PNode :=
  { id := id
    name := if (person.get "full_name").truthy then (person.get "full_name").toStr else "Unknown"
    dates := birthText person ++ " - " ++ deathText person
    children := [] }

/-- The recursion of `renderChildren`, driven by the remaining depth
allowance.  The source guards with `depth > 10 || visitedIds.includes(parentId)`
and recurses at `depth + 1`; here the allowance `11 - depth` is passed
down (so `0` is exactly `depth > 10`) and the recursion is structural.
`renderChildren` below restores the source signature. -/
def renderChildrenAux (individuals : Json) : Nat → String → List String → Option (List PNode)
  | 0, _, _ => none
  | fuel + 1, parentId, visitedIds =>
      if visitedIds.contains parentId then none
      else
        let visitedIds := visitedIds ++ [parentId]
        let parent := individuals.get parentId
        if !parent.truthy || !(parent.get "children").truthy || (parent.get "children").lenZero then
          none
        else
          some ((parent.get "children").elems.filterMap (fun cj =>
            let childId := cj.toStr
            if (individuals.get childId).truthy then
              some { createPersonNode childId (individuals.get childId) with
                     children := (renderChildrenAux individuals fuel childId visitedIds).getD [] }
            else
              none))

/-- Source `renderChildren(parentId, depth, visitedIds)`: `null` when
`depth > 10` or the id is already on the visited path; otherwise the
container of child nodes built from `parent.children`, skipping ids absent
from `familyData.individuals`, each child node carrying its own recursively
rendered children.  (`childNode.appendChild(grandchildrenContainer)` nests
the grandchild container inside the child node; an absent or empty
container leaves the child childless.) -/
def renderChildren (individuals : Json) (parentId : String) (depth : Nat)
    (visitedIds : List String) : Option (List PNode) :=
  renderChildrenAux individuals (11 - depth) parentId visitedIds

/-- Source `findRootIndividuals()`: the ids (in `for … in` order) whose person has
`!person.parents || person.parents.length === 0`. -/
def findRootIndividuals (individuals : Json) : List String :=
  individuals.keys.filter (fun id =>
    let person := individuals.get id
    !(person.get "parents").truthy || (person.get "parents").lenZero)

/-- Source `renderFamilyTree()` on the loaded document: nothing when the data or
its `individuals` is falsy; a flat list of every individual (no child
expansion) when no root qualifies; otherwise one tree per root, expanded
by `renderChildren(id, 1, [])`. -/
def renderFamilyTree (familyData : Json) : List PNode :=
  if !familyData.truthy || !(familyData.get "individuals").truthy then []
  else
    let individuals := familyData.get "individuals"
    let roots := findRootIndividuals individuals
    if roots.isEmpty then
      individuals.keys.map (fun id => createPersonNode id (individuals.get id))
    else
      roots.map (fun id =>
        { createPersonNode id (individuals.get id) with
          children := (renderChildren individuals id 1 []).getD [] })

/-- Source `validateData(data)`:
`data && data.individuals && typeof data.individuals === 'object'`. -/
def validateData (data : Json) : Bool :=
  data.truthy && (data.get "individuals").truthy && (data.get "individuals").typeofObject

/-- Source `processData(data)` acting on the global `familyData` state: on failed
validation an error is shown (`true` in the second component) and the state
is untouched; otherwise the document replaces the state.  Rendering reads
the state afterwards. -/
def processData (st : Option Json) (data : Json) : Option Json × Bool :=
  if !validateData data then (st, true)
  else (some data, false)

/-- JavaScript strict equality `x === 's'` against a string literal. -/
def Json.isStr : Json → String → Bool
  | .str t, s => t == s
  | _, _ => false

/-- One relatives row of the details panel (`addRelativeLink`): the target
id and the displayed name (`relative.full_name || 'Unknown'`). -/
def relativeLinks (individuals : Json) (refs : Json) : List (String × String) :=
  refs.elems.filterMap (fun rj =>
    let rid := rj.toStr
    if (individuals.get rid).truthy then
      some (rid,
        if ((individuals.get rid).get "full_name").truthy then
          ((individuals.get rid).get "full_name").toStr
        else "Unknown")
    else none)

/-- One relatives section of the details panel: present (as `some` links)
exactly when the reference field is truthy with `.length > 0`; the links
are the referenced individuals found in the store, in declared order. -/
def relSection (individuals : Json) (person : Json) (field : String) :
    Option (List (String × String)) :=
  let refs := person.get field
  if refs.truthy && refs.lenPos then some (relativeLinks individuals refs)
  else none

/-- The `birthInfo`/`deathInfo` text of `renderPersonDetails`: date, then
`", "` when both parts are present, then place. -/
def vitalInfo (v : Json) : String :=
  (if (v.get "date").truthy then (v.get "date").toStr else "")
  ++ (if (v.get "date").truthy && (v.get "place").truthy then ", " else "")
  ++ (if (v.get "place").truthy then (v.get "place").toStr else "")

/-- The abstract content of the details panel `renderPersonDetails` builds:
the name row, the optional sex/birth/death rows, and the optional
parents/spouses/children relatives sections. -/
structure Details where
  name : String
  sexRow : Option String
  birthRow : Option String
  deathRow : Option String
  parents : Option (List (String × String))
  spouses : Option (List (String × String))
  children : Option (List (String × String))

/-- Source `renderPersonDetails(id)`: `none` models the `'Person not found'`
message (no data loaded or the id not in the store); otherwise the panel's
rows.  Sex maps `'M'`/`'F'` to words and shows any other truthy value as
is; birth shows when `person.birth` is truthy and its info text is
non-empty; death additionally requires a date or place. -/
def renderPersonDetails (familyData : Json) (id : String) : Option Details :=
  if !familyData.truthy || !(familyData.get "individuals").truthy
      || !((familyData.get "individuals").get id).truthy then
    none
  else
    let individuals := familyData.get "individuals"
    let person := individuals.get id
    some
      { name := if (person.get "full_name").truthy then (person.get "full_name").toStr
                else "Unknown"
        sexRow :=
          if (person.get "sex").truthy then
            some (if (person.get "sex").isStr "M" then "Male"
                  else if (person.get "sex").isStr "F" then "Female"
                  else (person.get "sex").toStr)
          else none
        birthRow :=
          if (person.get "birth").truthy && vitalInfo (person.get "birth") != "" then
            some (vitalInfo (person.get "birth"))
          else none
        deathRow :=
          if (person.get "death").truthy
              && (((person.get "death").get "date").truthy
                  || ((person.get "death").get "place").truthy)
              && vitalInfo (person.get "death") != "" then
            some (vitalInfo (person.get "death"))
          else none
        parents := relSection individuals person "parents"
        spouses := relSection individuals person "spouses"
        children := relSection individuals person "children" }

/-- Following the spec's words ("entity kind sections are ID-keyed
mappings"): an ID-keyed mapping is a JSON object, keyed by entity ids.
Compared against `validateData`, which instead accepts every value of
JavaScript `object` type. -/
def specIdKeyedMapping : Json → Bool
  | .obj _ => true
  | _ => false

/-- The character left of position `i` (`prev` stands left of position 0). -/
def leftOf (prev : Option Char) (cs : List Char) (i : Nat) : Option Char :=
  if i == 0 then prev else cs.get? (i - 1)

/-- Does a standalone four-digit run start at position `i`: four digits
with a word boundary on each side, the meaning of `\b(\d{4})\b` at one
start position. -/
def standaloneYearAt (prev : Option Char) (cs : List Char) (i : Nat) : Bool :=
  ((cs.drop i).take 4).length == 4
  && ((cs.drop i).take 4).all Char.isDigit
  && (match leftOf prev cs i with
      | none => true
      | some c => !isWordChar c)
  && boundaryAfter (cs.drop (i + 4))

/-- The least start position of a standalone four-digit run. -/
def firstYearIdx (prev : Option Char) (cs : List Char) : Option Nat :=
  (List.range cs.length).find? (standaloneYearAt prev cs)

/-- The first standalone four-digit sequence found anywhere in the
character list, reading left to right — the specification-level meaning of
the regex search `dateString.match(/\b(\d{4})\b/)`. -/
def firstStandaloneYear (cs : List Char) : Option String :=
  (firstYearIdx none cs).map (fun i => String.mk ((cs.drop i).take 4))

/-- A root-to-leaf id path through a rendered node: the node's id followed
by a root-to-leaf path of one of its children; a childless node ends the
path. -/
inductive PathOf : PNode → List String → Prop where
  | leaf (id name dates : String) : PathOf ⟨id, name, dates, []⟩ [id]
  | cons (id name dates : String) (cs : List PNode) (c : PNode) (p : List String) :
      c ∈ cs → PathOf c p → PathOf ⟨id, name, dates, cs⟩ (id :: p)

/-- Along a path, every id except possibly the final one is new: not among
the already-visited ids `vis` and not an earlier non-final id of the path.
The final id is unconstrained, because the traversal emits a node before
deciding whether to expand it, so the node closing a cycle still appears,
as a leaf. -/
def GoodPath : List String → List String → Prop
  | _, [] => True
  | _, [_] => True
  | vis, a :: rest => a ∉ vis ∧ GoodPath (a :: vis) rest

/-! ### Concrete documents used to settle the claims -/

/-- A document exercising one-sided (asymmetric) relationship
declarations: `P` declares child `C` but `C` declares no parent, and `B`
declares parent `Q` but `Q` declares no child. -/
def oneSidedDoc : Json := Json.object [("individuals", Json.object [
  ("P", Json.object [("children", Json.array [.str "C"])]),
  ("C", Json.object []),
  ("Q", Json.object []),
  ("B", Json.object [("parents", Json.array [.str "Q"])])])]

/-- A document whose only individual holds dangling child and spouse
references (`IY`, `IZ` are absent from the store). -/
def danglingDoc : Json := Json.object [("individuals", Json.object [
  ("I1", Json.object [("full_name", .str "Ann"),
    ("children", Json.array [.str "IY"]),
    ("spouses", Json.array [.str "IZ"])])])]

/-- A document with a parent/child cycle reachable from a root:
`R → I1 → I2 → I1`. -/
def cycleDoc : Json := Json.object [("individuals", Json.object [
  ("R", Json.object [("children", Json.array [.str "I1"])]),
  ("I1", Json.object [("parents", Json.array [.str "R"]),
    ("children", Json.array [.str "I2"])]),
  ("I2", Json.object [("parents", Json.array [.str "I1"]),
    ("children", Json.array [.str "I1"])])])]

/-- The tree the viewer renders for `cycleDoc`. -/
def cycleTree : PNode :=
  { id := "R", name := "Unknown", dates := "? - present", children := [
    { id := "I1", name := "Unknown", dates := "? - present", children := [
      { id := "I2", name := "Unknown", dates := "? - present", children := [
        { id := "I1", name := "Unknown", dates := "? - present", children := [] }]}]}]}

/-- A document whose only individual has no identity field at all. -/
def namelessDoc : Json := Json.object [("individuals", Json.object [
  ("I1", Json.object [])])]

/-- A structurally odd document: its `individuals` section is an array,
not an ID-keyed mapping. -/
def arrayIndividualsDoc : Json := Json.object [("individuals", Json.array [])]

/-- A person whose death record is a non-empty object whose date string
is the literal text `present`. -/
def presentDatePerson : Json := Json.object [
  ("death", Json.object [("date", .str "present")])]

/-- A document in which every individual declares a parent, so no root
candidate exists: `A` and `B` are each other's parents. -/
def rootlessDoc : Json := Json.object [("individuals", Json.object [
  ("A", Json.object [("full_name", .str "Ada"), ("parents", Json.array [.str "B"])]),
  ("B", Json.object [("full_name", .str "Bob"), ("parents", Json.array [.str "A"])])])]

/-! ### Helper lemmas -/

theorem renderChildrenAux_zero (individuals : Json) (pid : String) (vis : List String) :
    renderChildrenAux individuals 0 pid vis = none := rfl

theorem renderChildrenAux_some_not_visited {individuals : Json} {fuel : Nat} {pid : String}
    {vis : List String} {ns : List PNode}
    (h : renderChildrenAux individuals fuel pid vis = some ns) :
    vis.contains pid = false := by
  cases fuel with
  | zero => simp [renderChildrenAux] at h
  | succ fuel =>
      simp [renderChildrenAux] at h
      simpa using h.1

theorem pathOf_nonempty {n : PNode} {p : List String} (h : PathOf n p) : p ≠ [] := by
  cases h <;> simp

theorem pathOf_head {n : PNode} {p : List String} (h : PathOf n p) :
    ∃ t, p = n.id :: t := by
  cases h <;> exact ⟨_, rfl⟩

theorem goodPath_congr {v w : List String} (h : ∀ x, x ∈ v ↔ x ∈ w) :
    ∀ {p : List String}, GoodPath v p → GoodPath w p := by
  intro p
  induction p generalizing v w with
  | nil => intro _; trivial
  | cons a rest ih =>
      cases rest with
      | nil => intro _; trivial
      | cons b rest =>
          intro hg
          obtain ⟨ha, hg'⟩ := hg
          refine ⟨fun hm => ha ((h a).mpr hm), ?_⟩
          exact ih (v := a :: v) (w := a :: w) (fun x => by simp [h x]) hg'

theorem goodPath_count_of_mem {v : List String} {id : String} :
    ∀ {p : List String}, GoodPath v p → id ∈ v → p.count id ≤ 1 := by
  intro p
  induction p generalizing v with
  | nil => intro _ _; simp
  | cons a rest ih =>
      cases rest with
      | nil =>
          intro _ _
          simp [List.count_cons]
          split <;> simp
      | cons b rest =>
          intro hg hm
          obtain ⟨ha, hg'⟩ := hg
          have hne : (a == id) = false := by
            simp only [beq_eq_false_iff_ne]
            intro he; exact ha (he ▸ hm)
          rw [List.count_cons, hne]
          simpa using ih (v := a :: v) hg' (List.mem_cons_of_mem a hm)

theorem goodPath_count {v : List String} (id : String) :
    ∀ {p : List String}, GoodPath v p → p.count id ≤ 2 := by
  intro p
  induction p generalizing v with
  | nil => intro _; simp
  | cons a rest ih =>
      cases rest with
      | nil =>
          intro _
          simp [List.count_cons]
          split <;> simp
      | cons b rest =>
          intro hg
          obtain ⟨_, hg'⟩ := hg
          rw [List.count_cons]
          by_cases he : a = id
          · have h1 : (b :: rest).count id ≤ 1 :=
              goodPath_count_of_mem hg' (by simp [he])
            simp [he]
            omega
          · have h2 : (b :: rest).count id ≤ 2 := ih (v := a :: v) hg'
            have : (a == id) = false := by simpa using he
            rw [this]
            simpa using h2

theorem filterMap_child_ids (individuals : Json) (g : String → List PNode) :
    ∀ l : List Json,
      ((l.filterMap (fun cj =>
          if (individuals.get cj.toStr).truthy then
            some { createPersonNode cj.toStr (individuals.get cj.toStr) with
                   children := g cj.toStr }
          else none)).map PNode.id)
      = (l.map Json.toStr).filter (fun cid => (individuals.get cid).truthy) := by
  intro l
  induction l with
  | nil => simp
  | cons cj rest ih =>
      by_cases hc : (individuals.get cj.toStr).truthy
      · simp only [List.filterMap_cons, List.map_cons, List.filter_cons, hc, if_pos]
        simpa [createPersonNode] using ih
      · simp only [List.filterMap_cons, List.map_cons, List.filter_cons, hc, if_neg]
        simpa [hc] using ih

/-- The shape of a successful expansion: the guard passed, and each emitted
node is the person node of a declared, resolvable child id carrying the
recursively rendered grandchildren. -/
theorem renderChildrenAux_succ_some {individuals : Json} {fuel : Nat} {pid : String}
    {vis : List String} {ns : List PNode}
    (h : renderChildrenAux individuals (fuel + 1) pid vis = some ns) :
    ns = ((individuals.get pid).get "children").elems.filterMap (fun cj =>
      if (individuals.get cj.toStr).truthy then
        some { createPersonNode cj.toStr (individuals.get cj.toStr) with
               children := (renderChildrenAux individuals fuel cj.toStr (vis ++ [pid])).getD [] }
      else none) := by
  simp [renderChildrenAux] at h
  exact h.2.2.symm

theorem renderChildrenAux_ids {individuals : Json} {fuel : Nat} {pid : String}
    {vis : List String} {ns : List PNode}
    (h : renderChildrenAux individuals fuel pid vis = some ns) :
    ns.map PNode.id
      = (((individuals.get pid).get "children").elems.map Json.toStr).filter
          (fun cid => (individuals.get cid).truthy) := by
  cases fuel with
  | zero => simp [renderChildrenAux] at h
  | succ fuel =>
      rw [renderChildrenAux_succ_some h]
      exact filterMap_child_ids individuals
        (fun cid => (renderChildrenAux individuals fuel cid (vis ++ [pid])).getD []) _

theorem renderChildrenAux_mem {individuals : Json} {fuel : Nat} {pid : String}
    {vis : List String} {ns : List PNode} {n : PNode}
    (h : renderChildrenAux individuals (fuel + 1) pid vis = some ns) (hn : n ∈ ns) :
    ∃ cj ∈ ((individuals.get pid).get "children").elems,
      (individuals.get cj.toStr).truthy = true ∧
      n = { createPersonNode cj.toStr (individuals.get cj.toStr) with
            children := (renderChildrenAux individuals fuel cj.toStr (vis ++ [pid])).getD [] } := by
  rw [renderChildrenAux_succ_some h] at hn
  obtain ⟨cj, hcj, hf⟩ := List.mem_filterMap.mp hn
  by_cases hc : (individuals.get cj.toStr).truthy
  · rw [if_pos hc] at hf
    exact ⟨cj, hcj, hc, (Option.some_injective _ hf).symm⟩
  · rw [if_neg hc] at hf
    exact absurd hf (by simp)

theorem renderChildrenAux_path_len :
    ∀ (fuel : Nat) {individuals : Json} {pid : String} {vis : List String} {ns : List PNode},
      renderChildrenAux individuals fuel pid vis = some ns →
      ∀ n ∈ ns, ∀ p, PathOf n p → p.length ≤ fuel := by
  intro fuel
  induction fuel with
  | zero => intro ind pid vis ns h; simp [renderChildrenAux] at h
  | succ fuel ih =>
      intro ind pid vis ns h n hn p hp
      obtain ⟨cj, _, _, hne⟩ := renderChildrenAux_mem h hn
      subst hne
      rcases heq : renderChildrenAux ind fuel cj.toStr (vis ++ [pid]) with _ | ms <;>
        rw [heq] at hp <;> simp only [Option.getD_none, Option.getD_some] at hp
      · cases hp with
        | leaf id name dates => simp
        | cons id name dates cs c q hc hq => simp at hc
      · cases hp with
        | leaf id name dates => simp
        | cons id name dates cs c q hc hq =>
            have := ih heq c hc q hq
            simpa using Nat.succ_le_succ this

theorem renderChildrenAux_paths_good :
    ∀ (fuel : Nat) {individuals : Json} {pid : String} {vis : List String} {ns : List PNode},
      renderChildrenAux individuals fuel pid vis = some ns →
      ∀ n ∈ ns, ∀ p, PathOf n p → GoodPath (vis ++ [pid]) p := by
  intro fuel
  induction fuel with
  | zero => intro ind pid vis ns h; simp [renderChildrenAux] at h
  | succ fuel ih =>
      intro ind pid vis ns h n hn p hp
      obtain ⟨cj, _, _, hne⟩ := renderChildrenAux_mem h hn
      subst hne
      rcases heq : renderChildrenAux ind fuel cj.toStr (vis ++ [pid]) with _ | ms <;>
        rw [heq] at hp <;> simp only [Option.getD_none, Option.getD_some] at hp
      · cases hp with
        | leaf id name dates => exact trivial
        | cons id name dates cs c q hc hq => simp at hc
      · cases hp with
        | leaf id name dates => exact trivial
        | cons id name dates cs c q hc hq =>
            have hgood : GoodPath ((vis ++ [pid]) ++ [cj.toStr]) q := ih heq c hc q hq
            have hnv : cj.toStr ∉ vis ++ [pid] := by
              have := renderChildrenAux_some_not_visited heq
              simpa using this
            cases q with
            | nil => exact absurd rfl (pathOf_nonempty hq)
            | cons b rest =>
                refine ⟨hnv, ?_⟩
                refine goodPath_congr (v := (vis ++ [pid]) ++ [cj.toStr]) ?_ hgood
                intro x
                simp only [createPersonNode, List.mem_append, List.mem_cons,
                  List.mem_singleton, List.not_mem_nil, or_false]
                tauto

theorem renderChildren_eq_aux (individuals : Json) (parentId : String) (depth : Nat)
    (visitedIds : List String) :
    renderChildren individuals parentId depth visitedIds
      = renderChildrenAux individuals (11 - depth) parentId visitedIds := rfl

theorem renderFamilyTree_mem {fd : Json} {n : PNode} (hn : n ∈ renderFamilyTree fd) :
    ∃ id, n = { createPersonNode id ((fd.get "individuals").get id) with
                children := (renderChildren (fd.get "individuals") id 1 []).getD [] }
        ∨ n = createPersonNode id ((fd.get "individuals").get id) := by
  by_cases h1 : (!fd.truthy || !(fd.get "individuals").truthy)
  · simp [renderFamilyTree, h1] at hn
  · simp only [renderFamilyTree, h1, Bool.false_eq_true, if_false] at hn
    by_cases h2 : (findRootIndividuals (fd.get "individuals")).isEmpty
    · rw [if_pos h2] at hn
      obtain ⟨id, _, hid⟩ := List.mem_map.mp hn
      exact ⟨id, Or.inr hid.symm⟩
    · rw [if_neg h2] at hn
      obtain ⟨id, _, hid⟩ := List.mem_map.mp hn
      exact ⟨id, Or.inl hid.symm⟩

theorem tree_paths_good {fd : Json} {n : PNode} (hn : n ∈ renderFamilyTree fd)
    {p : List String} (hp : PathOf n p) : GoodPath [] p ∧ p.length ≤ 11 := by
  obtain ⟨id, hcase | hcase⟩ := renderFamilyTree_mem hn
  · subst hcase
    rw [renderChildren_eq_aux] at hp
    rcases heq : renderChildrenAux (fd.get "individuals") (11 - 1) id [] with _ | ms <;>
      rw [heq] at hp <;> simp only [Option.getD_none, Option.getD_some] at hp
    · cases hp with
      | leaf _ _ _ => exact ⟨trivial, by simp⟩
      | cons _ _ _ cs c q hc hq => simp at hc
    · cases hp with
      | leaf _ _ _ => exact ⟨trivial, by simp⟩
      | cons _ _ _ cs c q hc hq =>
          have hgood := renderChildrenAux_paths_good (11 - 1) heq c hc q hq
          have hlen := renderChildrenAux_path_len (11 - 1) heq c hc q hq
          constructor
          · cases q with
            | nil => exact absurd rfl (pathOf_nonempty hq)
            | cons b rest =>
                refine ⟨by simp, ?_⟩
                simpa [createPersonNode] using hgood
          · simpa using Nat.succ_le_succ hlen
  · subst hcase
    simp only [createPersonNode] at hp
    cases hp with
    | leaf _ _ _ => exact ⟨trivial, by simp⟩
    | cons _ _ _ cs c q hc hq => simp at hc

theorem standaloneYearAt_succ (prev : Option Char) (c1 : Char) (rest : List Char) (i : Nat) :
    standaloneYearAt prev (c1 :: rest) (i + 1) = standaloneYearAt (some c1) rest i := by
  unfold standaloneYearAt leftOf
  cases i with
  | zero => simp
  | succ k => simp [List.drop_succ_cons]

theorem standaloneYearAt_zero_long (prev : Option Char) (c1 c2 c3 c4 : Char) (r4 : List Char) :
    standaloneYearAt prev (c1 :: c2 :: c3 :: c4 :: r4) 0
      = (c1.isDigit && c2.isDigit && c3.isDigit && c4.isDigit
         && boundaryBefore prev && boundaryAfter r4) := by
  simp only [standaloneYearAt, leftOf, List.drop_zero, boundaryBefore,
    List.take_succ_cons, List.take_zero, List.all_cons, List.all_nil, List.length_cons]
  by_cases h1 : c1.isDigit <;> by_cases h2 : c2.isDigit <;> by_cases h3 : c3.isDigit
    <;> by_cases h4 : c4.isDigit <;>
    simp [h1, h2, h3, h4, Bool.and_assoc, Bool.and_comm, Bool.and_left_comm]

theorem firstYearIdx_cons (prev : Option Char) (c1 : Char) (rest : List Char) :
    firstYearIdx prev (c1 :: rest)
      = if standaloneYearAt prev (c1 :: rest) 0 then some 0
        else (firstYearIdx (some c1) rest).map Nat.succ := by
  unfold firstYearIdx
  rw [show (c1 :: rest).length = rest.length + 1 from rfl, List.range_succ_eq_map,
    List.find?_cons]
  by_cases h0 : standaloneYearAt prev (c1 :: rest) 0
  · simp [h0]
  · have h0' : standaloneYearAt prev (c1 :: rest) 0 = false := by simpa using h0
    rw [h0']
    simp only [Bool.false_eq_true, if_false]
    rw [List.find?_map]
    have hpred : standaloneYearAt prev (c1 :: rest) ∘ Nat.succ
        = standaloneYearAt (some c1) rest := by
      funext i
      simp [Function.comp, standaloneYearAt_succ]
    rw [hpred]

theorem findYear_eq_firstYearIdx :
    ∀ (cs : List Char) (prev : Option Char),
      findYear prev cs
        = (firstYearIdx prev cs).map (fun i => String.mk ((cs.drop i).take 4)) := by
  intro cs
  induction cs with
  | nil => intro prev; simp [findYear, firstYearIdx]
  | cons c1 rest ih =>
      intro prev
      rw [firstYearIdx_cons]
      by_cases h0 : standaloneYearAt prev (c1 :: rest) 0
      · rw [if_pos h0]
        match rest with
        | [] => simp [standaloneYearAt] at h0
        | [c2] => simp [standaloneYearAt] at h0
        | [c2, c3] => simp [standaloneYearAt] at h0
        | c2 :: c3 :: c4 :: r4 =>
            rw [standaloneYearAt_zero_long] at h0
            rw [findYear.eq_2, if_pos h0]
            rfl
      · rw [if_neg h0]
        have h0' : standaloneYearAt prev (c1 :: rest) 0 = false := by simpa using h0
        have hmap : ((firstYearIdx (some c1) rest).map Nat.succ).map
              (fun i => String.mk (((c1 :: rest).drop i).take 4))
            = (firstYearIdx (some c1) rest).map (fun i => String.mk ((rest.drop i).take 4)) := by
          rw [Option.map_map]
          rfl
        rw [hmap, ← ih (some c1)]
        match rest with
        | [] => rw [findYear.eq_3 prev c1 [] (by intro _ _ _ _ h; cases h)]; rfl
        | [c2] => rw [findYear.eq_3 prev c1 [c2] (by intro _ _ _ _ h; cases h)]; rfl
        | [c2, c3] => rw [findYear.eq_3 prev c1 [c2, c3] (by intro _ _ _ _ h; cases h)]; rfl
        | c2 :: c3 :: c4 :: r4 =>
            rw [standaloneYearAt_zero_long] at h0'
            rw [findYear.eq_2, h0']
            rfl

/-! ### Claim theorems -/

/-- C4: for every input document, no node emitted by the hierarchy
traversal lies deeper than the depth ceiling 10 (the source hard-codes the
ceiling as the literal `10` in `depth > 10`): every root-to-leaf path of
an emitted tree holds at most 11 nodes, i.e. the deepest node sits at
depth 10 below its root, and an expansion requested at a depth beyond the
ceiling returns no children at all. -/
theorem c4_depth_ceiling :
    (∀ (individuals : Json) (parentId : String) (depth : Nat) (visitedIds : List String),
        depth > 10 → renderChildren individuals parentId depth visitedIds = none) ∧
    (∀ (familyData : Json), ∀ n ∈ renderFamilyTree familyData,
        ∀ p, PathOf n p → p.length ≤ 11) := by
  constructor
  · intro individuals parentId depth visitedIds hd
    rw [renderChildren_eq_aux]
    have h0 : 11 - depth = 0 := by omega
    rw [h0]
    rfl
  · intro familyData n hn p hp
    exact (tree_paths_good hn hp).2

/-- C4 witness: at depth 11 an expansion yields nothing, and on a concrete
three-generation document every root-to-leaf path stays within 11 nodes. -/
theorem c4_witness :
    renderChildren (Json.object [("I1", Json.object [])]) "I1" 11 [] = none := by
  exact c4_depth_ceiling.1 _ "I1" 11 [] (by omega)

/-- C3 counterexample: the claim says a cyclic individual's id appears at
most once on any root-to-leaf path, but on `cycleDoc` (cycle
`I1 → I2 → I1` under root `R`) the rendered tree has the root-to-leaf path
`R, I1, I2, I1`, on which `I1` appears twice: the node closing the cycle
is emitted (as a childless leaf) before the visited-path guard stops the
recursion, so only re-expansion, not re-emission, is prevented. -/
theorem c3_counterexample :
    renderFamilyTree cycleDoc = [cycleTree] ∧
    PathOf cycleTree ["R", "I1", "I2", "I1"] ∧
    (["R", "I1", "I2", "I1"].count "I1") = 2 := by
  refine ⟨rfl, ?_, rfl⟩
  exact PathOf.cons "R" "Unknown" "? - present" _
    { id := "I1", name := "Unknown", dates := "? - present", children := [
      { id := "I2", name := "Unknown", dates := "? - present", children := [
        { id := "I1", name := "Unknown", dates := "? - present", children := [] }]}]}
    ["I1", "I2", "I1"] (by simp)
    (PathOf.cons "I1" "Unknown" "? - present" _
      { id := "I2", name := "Unknown", dates := "? - present", children := [
        { id := "I1", name := "Unknown", dates := "? - present", children := [] }]}
      ["I2", "I1"] (by simp)
      (PathOf.cons "I2" "Unknown" "? - present" _
        { id := "I1", name := "Unknown", dates := "? - present", children := [] }
        ["I1"] (by simp)
        (PathOf.leaf "I1" "Unknown" "? - present")))

/-- C3 (amended): the traversal terminates (the model is a total function),
an id already on the current ancestor path is not re-expanded
(`renderChildren` returns nothing for it), and consequently an id appears
at most twice on any root-to-leaf path of the emitted tree: once where it
is expanded and, in a cycle, once more as the childless leaf closing the
cycle — but never a third time.  (The original claim's bound of one
appearance fails because the closing node is still emitted; see the
counterexample.) -/
theorem c3_cycle_truncation :
    (∀ (individuals : Json) (parentId : String) (depth : Nat) (visitedIds : List String),
        visitedIds.contains parentId = true →
        renderChildren individuals parentId depth visitedIds = none) ∧
    (∀ (familyData : Json), ∀ n ∈ renderFamilyTree familyData,
        ∀ p, PathOf n p → ∀ id, p.count id ≤ 2) := by
  constructor
  · intro individuals parentId depth visitedIds hv
    rw [renderChildren_eq_aux]
    cases h : 11 - depth with
    | zero => rfl
    | succ k =>
        have hv' : parentId ∈ visitedIds := by simpa using hv
        simp [renderChildrenAux, hv']
  · intro familyData n hn p hp id
    exact goodPath_count id (tree_paths_good hn hp).1

/-- C3 witness: a concrete application of the no-re-expansion half — with
`I1` already on the visited path, expanding `I1` yields nothing. -/
theorem c3_witness :
    renderChildren (cycleDoc.get "individuals") "I1" 4 ["R", "I1", "I2"] = none :=
  c3_cycle_truncation.1 _ "I1" 4 ["R", "I1", "I2"] (by decide)

/-- C10: `extractYear` never throws (it is a total function of its string
argument); it returns `?` on a null or empty input; on a full ISO
`YYYY-MM-DD` string it returns the captured year, the first four
characters; otherwise it returns the first standalone four-digit sequence
found anywhere in the string (leftmost match of `\b(\d{4})\b`), and when
no such sequence exists it returns the input unchanged. -/
theorem c10_extract_year :
    extractYear none = "?" ∧
    extractYear (some "") = "?" ∧
    (∀ (s y : String), isoYear? s = some y →
        extractYear (some s) = y ∧ y = String.mk (s.data.take 4)) ∧
    (∀ s : String, s ≠ "" → isoYear? s = none →
        extractYear (some s) = (firstStandaloneYear s.data).getD s) := by
  refine ⟨rfl, rfl, ?_, ?_⟩
  · intro s y h
    have hs : (s == "") = false := by
      simp only [beq_eq_false_iff_ne]
      intro he
      rw [he] at h
      simp [isoYear?] at h
    constructor
    · simp only [extractYear, hs, Bool.false_eq_true, if_false, h]
    · match s, h with
      | ⟨[y1, y2, y3, y4, h1, m1, m2, h2, d1, d2]⟩, h =>
          simp only [isoYear?] at h
          by_cases hc : ([y1, y2, y3, y4, m1, m2, d1, d2].all Char.isDigit)
              && h1 == '-' && h2 == '-'
          · rw [if_pos hc] at h
            simpa using h.symm
          · rw [if_neg hc] at h
            exact absurd h (by simp)
  · intro s hne h
    have hs : (s == "") = false := by simpa using hne
    simp only [extractYear, hs, Bool.false_eq_true, if_false, h]
    rw [findYear_eq_firstYearIdx]
    unfold firstStandaloneYear
    rcases firstYearIdx none s.data with _ | i <;> rfl

/-- C10 witness: the theorem applied at concrete date strings of each
shape. -/
theorem c10_witness :
    extractYear (some "1900-01-01") = "1900" ∧
    extractYear (some "born 1902, maybe") = "1902" ∧
    extractYear (some "abc1999") = "abc1999" := by
  refine ⟨(c10_extract_year.2.2.1 "1900-01-01" "1900" rfl).1, ?_, ?_⟩
  · rw [c10_extract_year.2.2.2 "born 1902, maybe" (by decide) rfl]; rfl
  · rw [c10_extract_year.2.2.2 "abc1999" (by decide) rfl]; rfl

theorem relativeLinks_fst (individuals : Json) (refs : Json) :
    (relativeLinks individuals refs).map Prod.fst
      = (refs.elems.map Json.toStr).filter (fun rid => (individuals.get rid).truthy) := by
  unfold relativeLinks
  induction refs.elems with
  | nil => simp
  | cons rj rest ih =>
      by_cases hc : (individuals.get rj.toStr).truthy
      · simp only [List.filterMap_cons, List.map_cons, List.filter_cons, hc, if_pos]
        simpa using ih
      · simp only [List.filterMap_cons, List.map_cons, List.filter_cons, hc, if_neg]
        simpa [hc] using ih

/-- C8: for a fixed document the traversal is a pure function, so repeated
runs are literally the same value (tree shape and ordering included), and
within each expanded parent the emitted sibling ids are exactly the
parent's declared `children` list — coerced to id strings, restricted to
ids present in the store — in declared order. -/
theorem c8_sibling_order_determinism :
    (∀ (individuals : Json) (parentId : String) (depth : Nat) (visitedIds : List String)
        (ns : List PNode),
        renderChildren individuals parentId depth visitedIds = some ns →
        ns.map PNode.id
          = (((individuals.get parentId).get "children").elems.map Json.toStr).filter
              (fun cid => (individuals.get cid).truthy)) ∧
    (∀ d1 d2 : Json, d1 = d2 → renderFamilyTree d1 = renderFamilyTree d2) := by
  constructor
  · intro individuals parentId depth visitedIds ns h
    exact renderChildrenAux_ids h
  · intro d1 d2 h
    rw [h]

/-- C8 witness: on `cycleDoc`, expanding `R` emits exactly its declared
child list `["I1"]`, in order. -/
theorem c8_witness :
    (([{ id := "I1", name := "Unknown", dates := "? - present", children := [
        { id := "I2", name := "Unknown", dates := "? - present", children := [
          { id := "I1", name := "Unknown", dates := "? - present", children := [] }]}]} ] :
      List PNode).map PNode.id)
      = ((((cycleDoc.get "individuals").get "R").get "children").elems.map Json.toStr).filter
          (fun cid => ((cycleDoc.get "individuals").get cid).truthy) :=
  c8_sibling_order_determinism.1 (cycleDoc.get "individuals") "R" 1 [] _ rfl

theorem renderPersonDetails_isSome {fd : Json} {id : String}
    (h1 : fd.truthy = true) (h2 : (fd.get "individuals").truthy = true)
    (h3 : ((fd.get "individuals").get id).truthy = true) :
    (renderPersonDetails fd id).isSome = true := by
  rw [renderPersonDetails, if_neg (by simp [h1, h2, h3])]
  simp

theorem renderPersonDetails_sections {fd : Json} {id : String} {det : Details}
    (h : renderPersonDetails fd id = some det) :
    det.name = (if (((fd.get "individuals").get id).get "full_name").truthy then
                  (((fd.get "individuals").get id).get "full_name").toStr
                else "Unknown") ∧
    det.parents = relSection (fd.get "individuals") ((fd.get "individuals").get id) "parents" ∧
    det.spouses = relSection (fd.get "individuals") ((fd.get "individuals").get id) "spouses" ∧
    det.children = relSection (fd.get "individuals") ((fd.get "individuals").get id) "children" := by
  rw [renderPersonDetails] at h
  by_cases hc : (!fd.truthy || !(fd.get "individuals").truthy
      || !((fd.get "individuals").get id).truthy)
  · rw [if_pos hc] at h
    exact absurd h (by simp)
  · rw [if_neg hc] at h
    simp only [Option.some.injEq] at h
    subst h
    exact ⟨rfl, rfl, rfl, rfl⟩

/-- C1 counterexample: the claim requires children reachable via
back-reference edges to be emitted and a parent declared only on the
parent's side to be shown in the details view.  In `oneSidedDoc`, `B`
declares parent `Q` (a back-reference edge from `Q` to `B`), yet the
rendered tree shows the root `Q` childless — `B` is emitted nowhere; and
`P` declares child `C`, yet `C`'s details view shows no parents section at
all.  The traversal and details view use only each individual's own
declared forward lists. -/
theorem c1_counterexample :
    renderFamilyTree oneSidedDoc = [
      { id := "P", name := "Unknown", dates := "? - present", children := [
        { id := "C", name := "Unknown", dates := "? - present", children := [] }]},
      { id := "C", name := "Unknown", dates := "? - present", children := [] },
      { id := "Q", name := "Unknown", dates := "? - present", children := [] }] ∧
    ((oneSidedDoc.get "individuals").get "B").get "parents" = Json.array [.str "Q"] ∧
    renderPersonDetails oneSidedDoc "C" = some
      { name := "Unknown", sexRow := none, birthRow := none, deathRow := none,
        parents := none, spouses := none, children := none } :=
  ⟨rfl, rfl, rfl⟩

/-- C1 (amended): expansion uses only declared forward `children` edges —
the ids emitted under a node are exactly the node's own declared children
list restricted to ids present in the store, in declared order (dangling
ids skipped, duplicates kept, no back-reference edges), so in particular
every emitted child id is declared by the parent; and the details view's
relatives rows list exactly the individual's own declared references that
resolve in the store, so a parent link declared only on the parent's side
is not shown. -/
theorem c1_children_declared_only :
    (∀ (individuals : Json) (parentId : String) (depth : Nat) (visitedIds : List String)
        (ns : List PNode), renderChildren individuals parentId depth visitedIds = some ns →
        ns.map PNode.id
          = (((individuals.get parentId).get "children").elems.map Json.toStr).filter
              (fun cid => (individuals.get cid).truthy)
        ∧ ∀ n ∈ ns, n.id ∈ ((individuals.get parentId).get "children").elems.map Json.toStr) ∧
    (∀ (individuals refs : Json),
        (relativeLinks individuals refs).map Prod.fst
          = (refs.elems.map Json.toStr).filter (fun rid => (individuals.get rid).truthy)) ∧
    (∀ (familyData : Json) (id : String) (det : Details),
        renderPersonDetails familyData id = some det →
        det.parents
          = relSection (familyData.get "individuals")
              ((familyData.get "individuals").get id) "parents") := by
  refine ⟨?_, relativeLinks_fst, ?_⟩
  · intro individuals parentId depth visitedIds ns h
    refine ⟨renderChildrenAux_ids h, ?_⟩
    intro n hn
    have hid : n.id ∈ ns.map PNode.id := List.mem_map_of_mem PNode.id hn
    rw [renderChildrenAux_ids h] at hid
    exact (List.mem_filter.mp hid).1
  · intro familyData id det h
    exact (renderPersonDetails_sections h).2.1

/-- C1 witness: the amended theorem applied on `oneSidedDoc` — the id of
the one node emitted under `P` comes from `P`'s declared children list. -/
theorem c1_witness :
    ({ id := "C", name := "Unknown", dates := "? - present", children := [] } : PNode).id
      ∈ (((oneSidedDoc.get "individuals").get "P").get "children").elems.map Json.toStr :=
  (c1_children_declared_only.1 (oneSidedDoc.get "individuals") "P" 1 []
    [{ id := "C", name := "Unknown", dates := "? - present", children := [] }] rfl).2
    { id := "C", name := "Unknown", dates := "? - present", children := [] } (by simp)

/-- C2 counterexample: the claim requires dangling references to be
annotated and surfaced in traversal and detail output.  In `danglingDoc`,
`I1` declares child `IY` and spouse `IZ`, both absent from the store; the
rendered tree shows `I1` childless and the details panel shows empty
spouses/children rows — the dangling ids `IY`, `IZ` appear nowhere in
either output and carry no annotation: they are silently dropped (the
entity itself does remain retrievable). -/
theorem c2_counterexample :
    ((danglingDoc.get "individuals").get "I1").get "children" = Json.array [.str "IY"] ∧
    ((danglingDoc.get "individuals").get "I1").get "spouses" = Json.array [.str "IZ"] ∧
    renderFamilyTree danglingDoc = [
      { id := "I1", name := "Ann", dates := "? - present", children := [] }] ∧
    renderPersonDetails danglingDoc "I1" = some
      { name := "Ann", sexRow := none, birthRow := none, deathRow := none,
        parents := none, spouses := some [], children := some [] } :=
  ⟨rfl, rfl, rfl, rfl⟩

/-- C2 (amended): an entity holding dangling references remains present
and retrievable — the store is not altered and its details view still
renders — but the dangling references themselves are silently dropped from
the output rather than annotated or surfaced: every child node the
traversal emits and every relatives row the details panel emits refers to
an id that resolves in the store, so a dangling id never appears. -/
theorem c2_dangling_dropped_entity_kept :
    (∀ (familyData : Json) (id : String),
        familyData.truthy = true → (familyData.get "individuals").truthy = true →
        ((familyData.get "individuals").get id).truthy = true →
        (renderPersonDetails familyData id).isSome = true) ∧
    (∀ (individuals : Json) (parentId : String) (depth : Nat) (visitedIds : List String)
        (ns : List PNode), renderChildren individuals parentId depth visitedIds = some ns →
        ∀ n ∈ ns, (individuals.get n.id).truthy = true) ∧
    (∀ (individuals refs : Json), ∀ pr ∈ relativeLinks individuals refs,
        (individuals.get pr.1).truthy = true) := by
  refine ⟨fun _ _ => renderPersonDetails_isSome, ?_, ?_⟩
  · intro individuals parentId depth visitedIds ns h n hn
    have hid : n.id ∈ ns.map PNode.id := List.mem_map_of_mem PNode.id hn
    rw [renderChildrenAux_ids h] at hid
    exact (List.mem_filter.mp hid).2
  · intro individuals refs pr hpr
    unfold relativeLinks at hpr
    obtain ⟨rj, _, hf⟩ := List.mem_filterMap.mp hpr
    by_cases hc : (individuals.get rj.toStr).truthy
    · rw [if_pos hc] at hf
      obtain ⟨he1, _⟩ := Prod.mk.injEq .. ▸ (Option.some.injEq _ _).mp hf
      rw [he1] at hc
      exact hc
    · rw [if_neg hc] at hf
      exact absurd hf (by simp)

/-- C2 witness: `I1` of `danglingDoc` (whose references all dangle) is
still retrievable from the details view. -/
theorem c2_witness : (renderPersonDetails danglingDoc "I1").isSome = true :=
  c2_dangling_dropped_entity_kept.1 danglingDoc "I1" rfl rfl rfl

theorem Json.elems_of_falsy {j : Json} (h : j.truthy = false) : j.elems = [] := by
  cases j <;> simp_all [Json.truthy, Json.elems]

/-- C5: an individual is chosen as a root exactly when its declared parent
list is empty — for parents fields of the documented shapes (an array, or
an absent/falsy value) being a root is equivalent to declaring zero parent
references; when no individual qualifies every individual is rendered as
its own root in a flat list with no child expansion (and this path raises
no error: rendering is total and `processData` has already accepted the
document); when roots exist, exactly they head the trees. -/
theorem c5_root_selection :
    (∀ (individuals : Json) (id : String),
        ((∃ xs, (individuals.get id).get "parents" = Json.arr xs)
          ∨ ((individuals.get id).get "parents").truthy = false) →
        (id ∈ findRootIndividuals individuals
          ↔ id ∈ individuals.keys ∧ ((individuals.get id).get "parents").elems = [])) ∧
    (∀ familyData : Json,
        familyData.truthy = true → (familyData.get "individuals").truthy = true →
        findRootIndividuals (familyData.get "individuals") = [] →
        renderFamilyTree familyData
          = (familyData.get "individuals").keys.map
              (fun id => createPersonNode id ((familyData.get "individuals").get id))
          ∧ ∀ n ∈ renderFamilyTree familyData, n.children = []) ∧
    (∀ familyData : Json,
        familyData.truthy = true → (familyData.get "individuals").truthy = true →
        findRootIndividuals (familyData.get "individuals") ≠ [] →
        renderFamilyTree familyData
          = (findRootIndividuals (familyData.get "individuals")).map (fun id =>
              { createPersonNode id ((familyData.get "individuals").get id) with
                children := (renderChildren (familyData.get "individuals") id 1 []).getD [] })) := by
  refine ⟨?_, ?_, ?_⟩
  · intro individuals id hshape
    unfold findRootIndividuals
    rw [List.mem_filter]
    rcases hshape with ⟨xs, hxs⟩ | hfalsy
    · simp [hxs, Json.truthy, Json.lenZero, Json.elems, List.isEmpty_iff]
    · simp [hfalsy, Json.elems_of_falsy hfalsy]
  · intro familyData h1 h2 hroots
    have hmain : renderFamilyTree familyData
        = (familyData.get "individuals").keys.map
            (fun id => createPersonNode id ((familyData.get "individuals").get id)) := by
      unfold renderFamilyTree
      rw [if_neg (by simp [h1, h2])]
      simp [hroots]
    refine ⟨hmain, ?_⟩
    intro n hn
    rw [hmain] at hn
    obtain ⟨id, _, hid⟩ := List.mem_map.mp hn
    rw [← hid]
    rfl
  · intro familyData h1 h2 hroots
    unfold renderFamilyTree
    rw [if_neg (by simp [h1, h2])]
    have hne : (findRootIndividuals (familyData.get "individuals")).isEmpty = false := by
      simpa [List.isEmpty_iff] using hroots
    simp [hne]

/-- C5 witness: in `rootlessDoc` every individual declares a parent, so no
root qualifies and the tree degrades to the flat list of all individuals,
each childless. -/
theorem c5_witness :
    renderFamilyTree rootlessDoc
      = (rootlessDoc.get "individuals").keys.map
          (fun id => createPersonNode id ((rootlessDoc.get "individuals").get id)) :=
  (c5_root_selection.2.1 rootlessDoc rfl rfl rfl).1

/-- C6 counterexample: the claim requires an individual with no identity
field to be rejected at ingestion with a descriptive error.  `namelessDoc`
holds one individual, `I1`, with no name of any form; ingestion accepts
the document without any error and the tree renders `I1` with the
placeholder name `Unknown` — no per-entity validation exists anywhere in
the loader. -/
theorem c6_counterexample :
    processData none namelessDoc = (some namelessDoc, false) ∧
    renderFamilyTree namelessDoc = [
      { id := "I1", name := "Unknown", dates := "? - present", children := [] }] :=
  ⟨rfl, rfl⟩

/-- C6 (amended): ingestion validates only the document's top-level
structure; an individual missing every identity field is not rejected —
the document loads without error and the nameless individual renders with
the placeholder name `Unknown`. -/
theorem c6_no_identity_validation :
    (∀ (st : Option Json) (data : Json), validateData data = true →
        processData st data = (some data, false)) ∧
    (∀ (id : String) (person : Json), (person.get "full_name").truthy = false →
        (createPersonNode id person).name = "Unknown") := by
  constructor
  · intro st data h
    simp [processData, h]
  · intro id person h
    simp [createPersonNode, h]

/-- C6 witness: the amended theorem applied to `namelessDoc` and its
nameless individual. -/
theorem c6_witness :
    processData none namelessDoc = (some namelessDoc, false) ∧
    (createPersonNode "I1" ((namelessDoc.get "individuals").get "I1")).name = "Unknown" :=
  ⟨c6_no_identity_validation.1 none namelessDoc rfl,
   c6_no_identity_validation.2 "I1" _ rfl⟩

/-- C7 counterexample: the claim says loading aborts when the
`individuals` section is not an ID-keyed mapping.  `arrayIndividualsDoc`
has an array (not an ID-keyed mapping, per the spec-side
`specIdKeyedMapping`) as its `individuals` section, yet `validateData`
accepts it (`typeof [] === 'object'`) and loading replaces the state with
no error. -/
theorem c7_counterexample :
    specIdKeyedMapping (arrayIndividualsDoc.get "individuals") = false ∧
    processData none arrayIndividualsDoc = (some arrayIndividualsDoc, false) :=
  ⟨rfl, rfl⟩

/-- C7 (amended): loading aborts if and only if the document is falsy or
its `individuals` member is falsy or not of JavaScript `object` type —
i.e. it is accepted exactly when the document is truthy and `individuals`
is a (possibly empty) JSON object or a JSON array, arrays passing the
`typeof` check although they are not ID-keyed mappings; on rejection an
error is reported and the previously loaded state is unchanged, and on
acceptance the document replaces the state with no error. -/
theorem c7_structural_check :
    (∀ data : Json, validateData data = true ↔
        (data.truthy = true ∧
          ((∃ kvs, data.get "individuals" = Json.obj kvs)
            ∨ (∃ xs, data.get "individuals" = Json.arr xs)))) ∧
    (∀ (st : Option Json) (data : Json),
        processData st data
          = if validateData data then (some data, false) else (st, true)) := by
  constructor
  · intro data
    unfold validateData
    cases h : data.get "individuals" <;>
      simp [h, Json.truthy, Json.typeofObject]
  · intro st data
    unfold processData
    by_cases h : validateData data <;> simp [h]

/-- C7 witness: the amended acceptance equation applied to the
array-`individuals` document. -/
theorem c7_witness :
    processData none arrayIndividualsDoc = (some arrayIndividualsDoc, false) := by
  rw [c7_structural_check.2 none arrayIndividualsDoc]
  rfl

/-- C9 counterexample: the claim says the literal text `present` is shown
exactly when the death field is absent or an empty object.  For
`presentDatePerson` the death field is present, non-empty, and even has a
date — the string `"present"` — yet the slot shows `present`, because the
extracted-year branch returns a dateless string unchanged and nothing
distinguishes that output from the literal: the `exactly when` direction
fails. -/
theorem c9_counterexample :
    deathText presentDatePerson = "present" ∧
    (presentDatePerson.get "death").truthy = true ∧
    ((presentDatePerson.get "death").get "date").truthy = true ∧
    ((presentDatePerson.get "death").keys).length = 1 :=
  ⟨rfl, rfl, rfl, rfl⟩

/-- C9 (amended): the death-year slot dispatches on the shape of the death
field — `extractYear` of the date when the death field and its date are
truthy; the literal `present` when the death field is falsy (absent) or
has no keys (empty object); `?` otherwise (a non-empty death record
without a truthy date) — so partial death data (for example only a place)
shows `?` while no death record shows `present`.  The `exactly when` of
the original claim holds only at the branch level, not for the displayed
strings, since `extractYear` can itself return `present` or `?`. -/
theorem c9_death_slot :
    (∀ person : Json, (person.get "death").truthy = false →
        deathText person = "present") ∧
    (∀ person : Json, (person.get "death").truthy = true →
        ((person.get "death").get "date").truthy = false →
        (person.get "death").keys = [] → deathText person = "present") ∧
    (∀ person : Json, (person.get "death").truthy = true →
        ((person.get "death").get "date").truthy = true →
        deathText person = extractYear (some ((person.get "death").get "date").toStr)) ∧
    (∀ person : Json, (person.get "death").truthy = true →
        ((person.get "death").get "date").truthy = false →
        (person.get "death").keys ≠ [] → deathText person = "?") := by
  refine ⟨?_, ?_, ?_, ?_⟩
  · intro person h
    simp [deathText, h, Json.orElse, Json.keys, JsonFields.toList]
  · intro person h hd hk
    simp [deathText, h, hd, Json.orElse, hk]
  · intro person h hd
    simp [deathText, h, hd]
  · intro person h hd hk
    simp [deathText, h, hd, Json.orElse, hk]

/-- C9 witness: a death record holding only a place shows `?`, while an
individual with no death record shows `present`. -/
theorem c9_witness :
    deathText (Json.object [("death", Json.object [("place", Json.str "York")])]) = "?" ∧
    deathText (Json.object []) = "present" :=
  ⟨c9_death_slot.2.2.2 _ rfl rfl (by decide), c9_death_slot.1 _ rfl⟩
